import Mathlib

/-!
Shallow embedding of `pybamm/expression_tree/binary_operators.py`: the
binary-operator expression tree, its domain combination, construction,
numeric evaluation (with and without memoization), structural copy,
Jacobian combinators, pretty printer and the minimum/maximum factories.
External collaborators (the numpy/scipy numeric backend, the base Symbol
class, the simplification engine) are modelled where noted.
-/

namespace PyBaMM

instance {ε α : Type} [DecidableEq ε] [DecidableEq α] : DecidableEq (Except ε α) := fun a b =>
  match a, b with
  | .error e1, .error e2 => decidable_of_iff (e1 = e2) (by simp)
  | .error _, .ok _ => isFalse (by simp)
  | .ok _, .error _ => isFalse (by simp)
  | .ok x, .ok y => decidable_of_iff (x = y) (by simp)

/-- Scalar floating-point values of the numeric backend (numpy / Python
floats), modelled with exact rationals for finite values plus signed
infinities and nan. Signed zero is not distinguished. -/
inductive PyFloat
  | fin (q : ℚ)
  | inf
  | ninf
  | nan
deriving DecidableEq

/-- Negation, following IEEE semantics. -/
def pfNeg : PyFloat → PyFloat
  | .fin q => .fin (-q)
  | .inf => .ninf
  | .ninf => .inf
  | .nan => .nan

/-- Addition, following IEEE semantics (inf + (-inf) = nan). -/
def pfAdd : PyFloat → PyFloat → PyFloat
  | .fin a, .fin b => .fin (a + b)
  | .fin _, .inf => .inf
  | .fin _, .ninf => .ninf
  | .inf, .fin _ => .inf
  | .ninf, .fin _ => .ninf
  | .inf, .inf => .inf
  | .ninf, .ninf => .ninf
  | _, _ => .nan

/-- Subtraction, following IEEE semantics. -/
def pfSub (a b : PyFloat) : PyFloat := pfAdd a (pfNeg b)

/-- Multiplication, following IEEE semantics (0 * inf = nan). -/
def pfMul : PyFloat → PyFloat → PyFloat
  | .fin a, .fin b => .fin (a * b)
  | .fin a, .inf => if 0 < a then .inf else if a < 0 then .ninf else .nan
  | .fin a, .ninf => if 0 < a then .ninf else if a < 0 then .inf else .nan
  | .inf, .fin b => if 0 < b then .inf else if b < 0 then .ninf else .nan
  | .ninf, .fin b => if 0 < b then .ninf else if b < 0 then .inf else .nan
  | .inf, .inf => .inf
  | .ninf, .ninf => .inf
  | .inf, .ninf => .ninf
  | .ninf, .inf => .ninf
  | _, _ => .nan

/-- Division, following numpy (non-trapping IEEE) semantics: a finite value
divided by zero gives a signed infinity, 0/0 gives nan. -/
def pfDiv : PyFloat → PyFloat → PyFloat
  | .fin a, .fin b =>
      if b = 0 then (if 0 < a then .inf else if a < 0 then .ninf else .nan)
      else .fin (a / b)
  | .fin _, .inf => .fin 0
  | .fin _, .ninf => .fin 0
  | .inf, .fin b => if b < 0 then .ninf else .inf
  | .ninf, .fin b => if b < 0 then .inf else .ninf
  | _, _ => .nan

/-- Elementwise power. Exact for integer exponents; fractional powers are
transcendental in general and are modelled as nan (no claim in this
development depends on a fractional power). -/
def pfPow : PyFloat → PyFloat → PyFloat
  | .fin a, .fin b =>
      if b.den = 1 then
        if 0 ≤ b.num then .fin (a ^ b.num.toNat)
        else if a = 0 then .inf
        else .fin ((1 : ℚ) / a ^ (-b.num).toNat)
      else .nan
  | .inf, .fin b => if 0 < b then .inf else if b < 0 then .fin 0 else .fin 1
  | _, _ => .nan

/-- Elementwise remainder with the sign convention of Python / numpy
(result has the sign of the divisor); remainder by zero is nan under numpy. -/
def pfMod : PyFloat → PyFloat → PyFloat
  | .fin a, .fin b => if b = 0 then .nan else .fin (a - b * (⌊a / b⌋ : ℤ))
  | _, _ => .nan

/-- Elementwise comparison a ≤ b, as the numeric 0/1 result numpy produces;
any comparison with nan is 0 (false). -/
def pfLe : PyFloat → PyFloat → PyFloat
  | .nan, _ => .fin 0
  | _, .nan => .fin 0
  | .fin a, .fin b => if a ≤ b then .fin 1 else .fin 0
  | .ninf, _ => .fin 1
  | _, .inf => .fin 1
  | .inf, _ => .fin 0
  | .fin _, .ninf => .fin 0

/-- Elementwise comparison a < b, as the numeric 0/1 result numpy produces. -/
def pfLt : PyFloat → PyFloat → PyFloat
  | .nan, _ => .fin 0
  | _, .nan => .fin 0
  | .fin a, .fin b => if a < b then .fin 1 else .fin 0
  | .ninf, .ninf => .fin 0
  | .ninf, _ => .fin 1
  | .inf, _ => .fin 0
  | .fin _, .inf => .fin 1
  | .fin _, .ninf => .fin 0

/-- np.minimum: nan propagates, otherwise the smaller value. -/
def pfMin : PyFloat → PyFloat → PyFloat
  | .nan, _ => .nan
  | _, .nan => .nan
  | .fin a, .fin b => if a ≤ b then .fin a else .fin b
  | .ninf, _ => .ninf
  | _, .ninf => .ninf
  | .inf, x => x
  | x, .inf => x

/-- np.maximum: nan propagates, otherwise the larger value. -/
def pfMax : PyFloat → PyFloat → PyFloat
  | .nan, _ => .nan
  | _, .nan => .nan
  | .fin a, .fin b => if a ≤ b then .fin b else .fin a
  | .inf, _ => .inf
  | _, .inf => .inf
  | .ninf, x => x
  | x, .ninf => x

/-- Dense matrix of backend floats, as a row list. -/
abbrev Mat := List (List PyFloat)

def matMap (f : PyFloat → PyFloat) (m : Mat) : Mat := m.map (fun row => row.map f)

def matZip (f : PyFloat → PyFloat → PyFloat) (m1 m2 : Mat) : Mat :=
  List.zipWith (List.zipWith f) m1 m2

def sameShape (m1 m2 : Mat) : Bool := m1.map List.length == m2.map List.length

/-- Storage format of a scipy sparse matrix. Only the two formats the code
distinguishes are modelled: compressed-sparse-row and coordinate format. -/
inductive SpFmt
  | csr
  | coo
deriving DecidableEq

/-- An evaluated value: a Python/numpy scalar number, a dense numpy array, or
a scipy sparse matrix with its storage format. Sparse matrices are modelled
by their elementwise entries plus the format tag. -/
inductive Value
  | number (x : PyFloat)
  | dense (m : Mat)
  | sparse (f : SpFmt) (m : Mat)
deriving DecidableEq

def Value.isSparse : Value → Bool
  | .sparse _ _ => true
  | _ => false

/-- Elementwise (broadcasting) binary operation of the dense numeric backend.
Scalars broadcast against arrays; arrays must agree in shape. General numpy
broadcasting between differently-shaped arrays is not modelled; operations
between a dense op and a sparse matrix outside the explicitly sparse-aware
dispatch of Multiplication / Inner / Division are not modelled. -/
def ewOp (f : PyFloat → PyFloat → PyFloat) : Value → Value → Except String Value
  | .number a, .number b => .ok (.number (f a b))
  | .number a, .dense m => .ok (.dense (matMap (fun x => f a x) m))
  | .dense m, .number b => .ok (.dense (matMap (fun x => f x b) m))
  | .dense m1, .dense m2 =>
      if sameShape m1 m2 then .ok (.dense (matZip f m1 m2))
      else .error "operands could not be broadcast together"
  | _, _ => .error "elementwise operation with a sparse operand is not supported here"

/-- Modelled from the spec: the scipy backend operation `A.multiply(other)`
(elementwise multiply of a sparse matrix by a scalar, dense array or sparse
matrix). Result format follows scipy: multiplying by a scalar keeps the
receiver format, by a sparse matrix produces CSR, and by a dense array
produces COO (which is why the code wraps results in `csr_matrix`). -/
def spMultiply (f : SpFmt) (m : Mat) : Value → Except String (SpFmt × Mat)
  | .number b => .ok (f, matMap (fun x => pfMul x b) m)
  | .dense m2 =>
      if sameShape m m2 then .ok (.coo, matZip pfMul m m2)
      else .error "inconsistent shapes"
  | .sparse _ m2 =>
      if sameShape m m2 then .ok (.csr, matZip pfMul m m2)
      else .error "inconsistent shapes"

/-- Modelled from the spec: the Python expression `1 / right`. For a plain
Python number zero this raises ZeroDivisionError; for a dense numpy array it
is the elementwise reciprocal (zero entries give infinity); a scalar divided
by a sparse matrix is not supported by scipy. -/
def reciprocal : Value → Except String Value
  | .number (.fin q) =>
      if q = 0 then .error "ZeroDivisionError: division by zero"
      else .ok (.number (.fin (1 / q)))
  | .number x => .ok (.number (pfDiv (.fin 1) x))
  | .dense m => .ok (.dense (matMap (fun x => pfDiv (.fin 1) x) m))
  | .sparse _ _ => .error "scalar division by a sparse matrix is not supported"

/-- The test `isinstance(right, numbers.Number) and right == 0` used by
`Division._binary_evaluate`: the value is a scalar number equal to zero. -/
def Value.isZeroNumber : Value → Bool
  | .number (.fin q) => q = 0
  | _ => false

/-- Source `Multiplication._binary_evaluate`: Hadamard product; a sparse operand is
handled by sparse elementwise multiply and the result is normalized to CSR
(`csr_matrix(left.multiply(right))`), otherwise `left * right`. -/
def Multiplication.binary_evaluate (left right : Value) : Except String Value :=
  match left with
  | .sparse f m => (spMultiply f m right).map (fun p => .sparse .csr p.2)
  | _ =>
      match right with
      | .sparse f m => (spMultiply f m left).map (fun p => .sparse .csr p.2)
      | _ => ewOp pfMul left right

/-- Source `Inner._binary_evaluate`: Hadamard product with the same sparse-aware
dispatch as Multiplication, but the sparse result is returned as
`left.multiply(right)` without the `csr_matrix` normalization. -/
def Inner.binary_evaluate (left right : Value) : Except String Value :=
  match left with
  | .sparse f m => (spMultiply f m right).map (fun p => .sparse p.1 p.2)
  | _ =>
      match right with
      | .sparse f m => (spMultiply f m left).map (fun p => .sparse p.1 p.2)
      | _ => ewOp pfMul left right

/-- Source `Division._binary_evaluate`: a sparse left operand is evaluated as
`csr_matrix(left.multiply(1 / right))`; otherwise a right operand that is a
scalar number equal to zero gives `left * np.inf`, and any other right
operand gives the elementwise quotient `left / right`. -/
def Division.binary_evaluate (left right : Value) : Except String Value :=
  match left with
  | .sparse f m =>
      match reciprocal right with
      | .error msg => .error msg
      | .ok rcp => (spMultiply f m rcp).map (fun p => .sparse .csr p.2)
  | _ =>
      if right.isZeroNumber then ewOp pfMul left (.number .inf)
      else ewOp pfDiv left right

def matCols (m : Mat) (n : Nat) : Bool := m.all (fun row => row.length == n)

/-- True matrix product of the backend (rows of m1 against columns of m2). -/
def matProd (m1 m2 : Mat) : Mat :=
  m1.map (fun row => m2.transpose.map (fun col => (List.zipWith pfMul row col).foldl pfAdd (.fin 0)))

/-- Source `MatrixMultiplication._binary_evaluate`: the true matrix product
`left @ right`. Partial model of the backend: the product of two sparse
matrices stays sparse (CSR); a product involving a dense operand is dense;
matmul of scalars is an error, as in numpy. -/
def MatrixMultiplication.binary_evaluate (left right : Value) : Except String Value :=
  match left, right with
  | .number _, _ => .error "matmul with a scalar operand is not allowed"
  | _, .number _ => .error "matmul with a scalar operand is not allowed"
  | .dense m1, .dense m2 =>
      if matCols m1 m2.length then .ok (.dense (matProd m1 m2))
      else .error "matmul dimension mismatch"
  | .sparse _ m1, .dense m2 =>
      if matCols m1 m2.length then .ok (.dense (matProd m1 m2))
      else .error "matmul dimension mismatch"
  | .dense m1, .sparse _ m2 =>
      if matCols m1 m2.length then .ok (.dense (matProd m1 m2))
      else .error "matmul dimension mismatch"
  | .sparse _ m1, .sparse _ m2 =>
      if matCols m1 m2.length then .ok (.sparse .csr (matProd m1 m2))
      else .error "matmul dimension mismatch"

/-- Tags for the concrete binary operator classes of the module. -/
inductive Kind
  | power
  | addition
  | subtraction
  | multiplication
  | matrixMultiplication
  | division
  | inner
  | equalHeaviside
  | notEqualHeaviside
  | modulo
  | minimum
  | maximum
deriving DecidableEq

/-- The `name` each operator class passes to `BinaryOperator.__init__`. -/
def opName : Kind → String
  | .power => "**"
  | .addition => "+"
  | .subtraction => "-"
  | .multiplication => "*"
  | .matrixMultiplication => "@"
  | .division => "/"
  | .inner => "inner product"
  | .equalHeaviside => "<="
  | .notEqualHeaviside => "<"
  | .modulo => "%"
  | .minimum => "minimum"
  | .maximum => "maximum"

/-- Dispatch of `_binary_evaluate` over the concrete operator classes.
Power, the Heaviside comparisons and Minimum evaluate inside
`np.errstate(invalid="ignore")`; warning suppression has no effect on the
returned value and is therefore invisible in this model. -/
def binary_evaluate : Kind → Value → Value → Except String Value
  | .power, l, r => ewOp pfPow l r
  | .addition, l, r => ewOp pfAdd l r
  | .subtraction, l, r => ewOp pfSub l r
  | .multiplication, l, r => Multiplication.binary_evaluate l r
  | .matrixMultiplication, l, r => MatrixMultiplication.binary_evaluate l r
  | .division, l, r => Division.binary_evaluate l r
  | .inner, l, r => Inner.binary_evaluate l r
  | .equalHeaviside, l, r => ewOp pfLe l r
  | .notEqualHeaviside, l, r => ewOp pfLt l r
  | .modulo, l, r => ewOp pfMod l r
  | .minimum, l, r => ewOp pfMin l r
  | .maximum, l, r => ewOp pfMax l r

/-- Constant array entries held by a `pybamm.Array` / `pybamm.Matrix` leaf:
either a dense ndarray or a sparse matrix with its storage format. -/
inductive MatVal
  | dense (m : Mat)
  | sparse (f : SpFmt) (m : Mat)
deriving DecidableEq

def MatVal.toValue : MatVal → Value
  | .dense m => .dense m
  | .sparse f m => .sparse f m

/-- The `csr_matrix(...)` conversion applied to a constant array value. -/
def csrOfMat : MatVal → MatVal
  | .dense m => .sparse .csr m
  | .sparse _ m => .sparse .csr m

def negMat : MatVal → MatVal
  | .dense m => .dense (matMap pfNeg m)
  | .sparse f m => .sparse f (matMap pfNeg m)

/-- Auxiliary domains: a mapping from a domain-role name (such as
"secondary") to a domain list, kept as an association list. -/
abbrev Aux := List (String × List String)

def lookupAux : Aux → String → Option (List String)
  | [], _ => none
  | (k, v) :: rest, s => if k = s then some v else lookupAux rest s

/-- Unary operators appearing in the smoothing approximations. -/
inductive UnOp
  | uexp
  | ulog
deriving DecidableEq

/-- Expression-tree nodes. Binary operator nodes carry the domain and
auxiliary-domain metadata stored by `Symbol.__init__` at construction time.
Leaves (Scalar, generic named symbols / variables, Time, StateVector, Array)
and the unary Negate / exp / log / PrimaryBroadcast wrappers come from
external modules and are modelled with the attributes the claims need. -/
inductive Expr
  | scalar (x : PyFloat)
  | var (s : String)
  | time
  | stateVector (i n : Nat)
  | array (v : MatVal) (dom : List String) (aux : Aux)
  | negate (child : Expr)
  | unary (u : UnOp) (child : Expr)
  | broadcast (child : Expr) (dom : List String)
  | binary (k : Kind) (left right : Expr) (dom : List String) (aux : Aux)
deriving DecidableEq

/-- The `domain` attribute of a node. Scalars, named symbols, Time and
StateVector leaves are used with the default empty domain; Negate and the
smoothing unaries take their child domain; PrimaryBroadcast has the
broadcast target domain; a binary node stores the domain computed (or
forced by `copy_domains`) at construction. -/
def domain : Expr → List String
  | .scalar _ => []
  | .var _ => []
  | .time => []
  | .stateVector _ _ => []
  | .array _ dom _ => dom
  | .negate c => domain c
  | .unary _ c => domain c
  | .broadcast _ dom => dom
  | .binary _ _ _ dom _ => dom

/-- The `auxiliary_domains` attribute of a node. A PrimaryBroadcast node
records the child domain as its "secondary" auxiliary domain. -/
def auxdoms : Expr → Aux
  | .scalar _ => []
  | .var _ => []
  | .time => []
  | .stateVector _ _ => []
  | .array _ _ aux => aux
  | .negate c => auxdoms c
  | .unary _ c => auxdoms c
  | .broadcast c _ => [("secondary", domain c)]
  | .binary _ _ _ _ aux => aux

/-- Source `BinaryOperator.is_constant`: the conjunction of the children, for every
operator variant; leaves follow `Symbol.is_constant` (which searches the
tree for Variable / StateVector / Time nodes). -/
def is_constant : Expr → Bool
  | .scalar _ => true
  | .var _ => false
  | .time => false
  | .stateVector _ _ => false
  | .array _ _ _ => true
  | .negate c => is_constant c
  | .unary _ c => is_constant c
  | .broadcast c _ => is_constant c
  | .binary _ l r _ _ => is_constant l && is_constant r

/-- Modelled from the spec: `Symbol.evaluates_to_number` (an expression whose
evaluated result is a scalar number, inferred from shape information).
Scalars and Time are numbers, arrays and state-vector slices are not, and an
operator node is scalar-shaped when both operands are. -/
def evaluates_to_number : Expr → Bool
  | .scalar _ => true
  | .var _ => false
  | .time => true
  | .stateVector _ _ => false
  | .array _ _ _ => false
  | .negate c => evaluates_to_number c
  | .unary _ c => evaluates_to_number c
  | .broadcast _ _ => false
  | .binary _ l r _ _ => evaluates_to_number l && evaluates_to_number r

/-- External `Symbol.evaluates_to_constant_number`: evaluates to a number and is
constant. -/
def evaluates_to_constant_number (e : Expr) : Bool :=
  evaluates_to_number e && is_constant e

/-- The error message raised by `BinaryOperator.get_children_domains` when
both domains are non-empty and unequal. -/
def domainMismatchMessage (ldomain rdomain : List String) : String :=
  "DomainError: children must have same (or empty) domains, but left domain is "
    ++ String.intercalate "," ldomain ++ " and right domain is "
    ++ String.intercalate "," rdomain

/-- Source `BinaryOperator.get_children_domains`: equal domains give that domain,
an empty domain on one side gives the other, and two non-empty unequal
domains raise a DomainError. -/
def get_children_domains (ldomain rdomain : List String) : Except String (List String) :=
  if ldomain = rdomain then .ok ldomain
  else if ldomain = [] then .ok rdomain
  else if rdomain = [] then .ok ldomain
  else .error (domainMismatchMessage ldomain rdomain)

/-- Modelled from the spec: merging one auxiliary-domain table into an
accumulator, level by level; two children supplying unequal lists for the
same level is a DomainError (`Symbol.get_children_auxiliary_domains`). -/
def mergeAux : Aux → Aux → Except String Aux
  | acc, [] => .ok acc
  | acc, e :: rest =>
      match lookupAux acc e.1 with
      | none => mergeAux (acc ++ [e]) rest
      | some d =>
          if d = e.2 then mergeAux acc rest
          else .error "DomainError: children must have compatible auxiliary domains"

def gcadAux : Aux → List Expr → Except String Aux
  | acc, [] => .ok acc
  | acc, c :: cs =>
      match mergeAux acc (auxdoms c) with
      | .error msg => .error msg
      | .ok acc2 => gcadAux acc2 cs

/-- Modelled from the spec: `Symbol.get_children_auxiliary_domains`, the
combination of the auxiliary-domain tables of the children. -/
def get_children_auxiliary_domains (children : List Expr) : Except String Aux :=
  gcadAux [] children

/-- An operand passed to a binary operator constructor: a plain Python
number or an expression node (`BinaryOperator.format` turns numbers into
Scalar leaves). -/
inductive Operand
  | num (q : ℚ)
  | expr (e : Expr)
deriving DecidableEq

/-- Scalar-to-node conversion done by `BinaryOperator.format`. -/
def toSymbol : Operand → Expr
  | .num q => .scalar (.fin q)
  | .expr e => e

/-- The automatic-broadcast part of `BinaryOperator.format`: with two
non-empty domains, an operand whose domain equals the other operand's
"secondary" auxiliary domain is wrapped in a PrimaryBroadcast to the other
operand's domain. The second test uses the (possibly already broadcast)
left operand, as in the source. -/
def format (left right : Expr) : Expr × Expr :=
  if domain left ≠ [] ∧ domain right ≠ [] then
    let left2 :=
      if domain left ≠ domain right ∧ lookupAux (auxdoms right) "secondary" = some (domain left)
      then Expr.broadcast left (domain right) else left
    let right2 :=
      if domain right ≠ domain left2 ∧ lookupAux (auxdoms left2) "secondary" = some (domain right)
      then Expr.broadcast right (domain left2) else right
    (left2, right2)
  else (left, right)

/-- Source `BinaryOperator.__init__`: format the children (number conversion and
automatic broadcast), combine the domains, combine the auxiliary domains,
and store everything on the new node. A DomainError propagates and no node
is built. -/
def mk (k : Kind) (left right : Operand) : Except String Expr :=
  let p := format (toSymbol left) (toSymbol right)
  match get_children_domains (domain p.1) (domain p.2) with
  | .error msg => .error msg
  | .ok dom =>
      match get_children_auxiliary_domains [p.1, p.2] with
      | .error msg => .error msg
      | .ok aux => .ok (.binary k p.1 p.2 dom aux)

/-- The fixed inputs of one evaluation call: the time and state vector
(either may be absent, as `t=None` / `y=None` in the source). -/
structure Env where
  t : Option PyFloat
  y : Option (List PyFloat)
deriving DecidableEq

/-- Elementwise negation of an evaluated value (the numeric effect of
`pybamm.Negate`). -/
def negValue : Value → Value
  | .number x => .number (pfNeg x)
  | .dense m => .dense (matMap pfNeg m)
  | .sparse f m => .sparse f (matMap pfNeg m)

/-- Plain (unmemoized) numeric evaluation. Binary nodes follow
`BinaryOperator.evaluate` without `known_evals`: evaluate left, evaluate
right, combine with `_binary_evaluate`. Leaves follow the base Symbol
behaviour: a Scalar returns its value, Time needs `t`, a StateVector slices
`y` into a column, an Array returns its entries, Negate negates its child.
Named variables and PrimaryBroadcast cannot be evaluated before
discretisation, and the transcendental exp / log of the smoothing trees are
outside this exact-arithmetic model; these evaluate to an error. -/
def eval : Expr → Env → Except String Value
  | .scalar x, _ => .ok (.number x)
  | .var s, _ => .error ("symbol " ++ s ++ " cannot be evaluated before discretisation")
  | .time, env =>
      match env.t with
      | some t => .ok (.number t)
      | none => .error "t must be provided"
  | .stateVector i n, env =>
      match env.y with
      | some ys => .ok (.dense (((ys.drop i).take n).map (fun x => [x])))
      | none => .error "y must be provided"
  | .array v _ _, _ => .ok v.toValue
  | .negate c, env => (eval c env).map negValue
  | .unary _ _, _ => .error "transcendental functions are not modelled in exact arithmetic"
  | .broadcast _ _, _ => .error "broadcast cannot be evaluated before discretisation"
  | .binary k l r _ _, env =>
      match eval l env with
      | .error msg => .error msg
      | .ok lv =>
          match eval r env with
          | .error msg => .error msg
          | .ok rv => binary_evaluate k lv rv

/-- The memoization table `known_evals`, keyed by node identity. A pybamm
node id is a structural hash of the node, so identity is modelled as
structural equality of expressions. -/
abbrev Memo := List (Expr × Value)

def memoLookup : Memo → Expr → Option Value
  | [], _ => none
  | (k, v) :: rest, e => if k = e then some v else memoLookup rest e

/-- The memoized path of `Symbol.evaluate` for nodes whose children are not
themselves threaded through the table: look the node up, on a miss compute
with `_base_evaluate` and store. -/
def memoBase (e : Expr) (env : Env) (m : Memo) : Except String (Value × Memo) :=
  match memoLookup m e with
  | some v => .ok (v, m)
  | none =>
      match eval e env with
      | .error msg => .error msg
      | .ok v => .ok (v, (e, v) :: m)

/-- Source `BinaryOperator.evaluate` with `known_evals` supplied: look up this
node's identity first; on a miss evaluate left and right while threading the
table, combine, store the result keyed by identity, and return the value
with the updated table. Non-binary nodes use the base Symbol memoized path. -/
def evaluateMemo : Expr → Env → Memo → Except String (Value × Memo)
  | .binary k l r dom aux, env, m =>
      match memoLookup m (.binary k l r dom aux) with
      | some v => .ok (v, m)
      | none =>
          match evaluateMemo l env m with
          | .error msg => .error msg
          | .ok (lv, m1) =>
              match evaluateMemo r env m1 with
              | .error msg => .error msg
              | .ok (rv, m2) =>
                  match binary_evaluate k lv rv with
                  | .error msg => .error msg
                  | .ok v => .ok (v, (Expr.binary k l r dom aux, v) :: m2)
  | .scalar x, env, m => memoBase (.scalar x) env m
  | .var s, env, m => memoBase (.var s) env m
  | .time, env, m => memoBase .time env m
  | .stateVector i n, env, m => memoBase (.stateVector i n) env m
  | .array v dom aux, env, m => memoBase (.array v dom aux) env m
  | .negate c, env, m => memoBase (.negate c) env m
  | .unary u c, env, m => memoBase (.unary u c) env m
  | .broadcast c dom, env, m => memoBase (.broadcast c dom) env m

/-- External `Symbol.copy_domains`: force the domain and auxiliary-domain metadata of
a node to given values (used by `new_copy` with the metadata of the copied
original). Only nodes that store metadata are affected. -/
def copy_domains (e : Expr) (dom : List String) (aux : Aux) : Expr :=
  match e with
  | .binary k l r _ _ => .binary k l r dom aux
  | .array v _ _ => .array v dom aux
  | other => other

/-- Source `BinaryOperator.new_copy`: deep-copy the children, rebuild a node of the
same operator kind from the copies (`_binary_new_copy`, which reruns the
constructor), then force the copy's domains to the original's with
`copy_domains`. Leaves copy to structurally identical leaves; the unary
wrappers copy their child. -/
def new_copy : Expr → Except String Expr
  | .binary k l r dom aux =>
      match new_copy l with
      | .error msg => .error msg
      | .ok nl =>
          match new_copy r with
          | .error msg => .error msg
          | .ok nr =>
              match mk k (.expr nl) (.expr nr) with
              | .error msg => .error msg
              | .ok out => .ok (copy_domains out dom aux)
  | .negate c => (new_copy c).map Expr.negate
  | .unary u c => (new_copy c).map (Expr.unary u)
  | .broadcast c dom => (new_copy c).map (fun nc => Expr.broadcast nc dom)
  | e => .ok e

def exceptIsOk {α : Type} : Except String α → Bool
  | .ok _ => true
  | .error _ => false

/-- Well-formedness of stored metadata: every binary node in the tree was
actually produced by the constructor, so its children have equal domains or
one empty domain, and their auxiliary domains merge without conflict. -/
def WF : Expr → Bool
  | .binary _ l r _ _ =>
      (decide (domain l = domain r) || decide (domain l = []) || decide (domain r = []))
        && exceptIsOk (get_children_auxiliary_domains [l, r])
        && WF l && WF r
  | .negate c => WF c
  | .unary _ c => WF c
  | .broadcast c _ => WF c
  | _ => true

/-- Source `MatrixMultiplication.diff`: raises NotImplementedError unconditionally,
whatever the children and the differentiation variable are. -/
def MatrixMultiplication.diff (left right v : Expr) : Except String Expr :=
  .error "NotImplementedError: diff not implemented for symbol of type MatrixMultiplication"

/-- Source `MatrixMultiplication._binary_jac`: only supported when the left operand
is a constant Array or the negation of one; then the evaluated left operand
is wrapped as `pybamm.Matrix(csr_matrix(left.evaluate()))` (a constant
array leaf with empty domain) and matrix-multiplied with the right child's
Jacobian. Every other left operand raises NotImplementedError. -/
def MatrixMultiplication.binary_jac (left right left_jac right_jac : Expr) :
    Except String Expr :=
  match left with
  | .array v _ _ =>
      mk .matrixMultiplication (.expr (.array (csrOfMat v) [] [])) (.expr right_jac)
  | .negate (.array v _ _) =>
      mk .matrixMultiplication (.expr (.array (csrOfMat (negMat v)) [] [])) (.expr right_jac)
  | _ =>
      .error "NotImplementedError: jac of MatrixMultiplication is only implemented for left of type Array"

/-- Source `Multiplication._binary_jac`: the product rule, with constant operands
short-circuited: two constant-number operands give the zero Scalar; one
constant-number operand drops its Jacobian term. The result subtrees are
built with the overloaded operators, i.e. fresh operator nodes. -/
def Multiplication.binary_jac (left right left_jac right_jac : Expr) :
    Except String Expr :=
  if evaluates_to_constant_number left && evaluates_to_constant_number right then
    .ok (.scalar (.fin 0))
  else if evaluates_to_constant_number left then
    mk .multiplication (.expr left) (.expr right_jac)
  else if evaluates_to_constant_number right then
    mk .multiplication (.expr right) (.expr left_jac)
  else
    match mk .multiplication (.expr right) (.expr left_jac) with
    | .error msg => .error msg
    | .ok a =>
        match mk .multiplication (.expr left) (.expr right_jac) with
        | .error msg => .error msg
        | .ok b => mk .addition (.expr a) (.expr b)

/-- Source `Division._binary_jac`: the quotient rule with the same constant
short-circuits: both constant gives the zero Scalar; a constant left gives
`-left / right ** 2 * right_jac`; a constant right gives
`left_jac / right`; otherwise the full quotient rule. -/
def Division.binary_jac (left right left_jac right_jac : Expr) :
    Except String Expr :=
  if evaluates_to_constant_number left && evaluates_to_constant_number right then
    .ok (.scalar (.fin 0))
  else if evaluates_to_constant_number left then
    match mk .power (.expr right) (.num 2) with
    | .error msg => .error msg
    | .ok p =>
        match mk .division (.expr (.negate left)) (.expr p) with
        | .error msg => .error msg
        | .ok d => mk .multiplication (.expr d) (.expr right_jac)
  else if evaluates_to_constant_number right then
    mk .division (.expr left_jac) (.expr right)
  else
    match mk .multiplication (.expr right) (.expr left_jac) with
    | .error msg => .error msg
    | .ok a =>
        match mk .multiplication (.expr left) (.expr right_jac) with
        | .error msg => .error msg
        | .ok b =>
            match mk .subtraction (.expr a) (.expr b) with
            | .error msg => .error msg
            | .ok s =>
                match mk .power (.expr right) (.num 2) with
                | .error msg => .error msg
                | .ok p => mk .division (.expr s) (.expr p)

/-- The global smoothing setting `pybamm.settings.min_smoothing` /
`max_smoothing`: the string "exact" or a smoothing coefficient k. -/
inductive SmoothSetting
  | exact
  | coeff (k : ℚ)
deriving DecidableEq

/-- The relevant part of the ambient `pybamm.settings` configuration. -/
structure Settings where
  min_smoothing : SmoothSetting
  max_smoothing : SmoothSetting
deriving DecidableEq

/-- The module-level `pybamm.is_constant(symbol)` helper: a plain number is
constant, otherwise the node's `is_constant`. -/
def is_constant_op : Operand → Bool
  | .num _ => true
  | .expr e => is_constant e

/-- Modelled from the spec: the external constant-folding collaborator
`pybamm.simplify_if_constant` (with `clear_domains=False`): a node that is
constant and evaluates (without t or y) to a scalar number is collapsed to
that Scalar; anything else is returned unchanged. -/
def simplify_if_constant (e : Expr) : Expr :=
  if is_constant e then
    match eval e ⟨none, none⟩ with
    | .ok (.number x) => .scalar x
    | _ => e
  else e

/-- The Python multiplication `q * operand` appearing in the smoothing
formulas: two plain numbers stay a plain number, a number times a node
builds a Multiplication node with the number converted to a Scalar. -/
def mulNum (q : ℚ) (o : Operand) : Except String Operand :=
  match o with
  | .num a => .ok (.num (q * a))
  | .expr e => (mk .multiplication (.num q) (.expr e)).map Operand.expr

/-- External `pybamm.exp` applied to an operand (numbers become Scalar leaves). -/
def expOp (o : Operand) : Expr := .unary .uexp (toSymbol o)

/-- Source `softminus(left, right, k)`: the log-sum-exp softplus approximation to
the minimum, `log(exp(-k * left) + exp(-k * right)) / -k`. -/
def softminus (left right : Operand) (k : ℚ) : Except String Expr :=
  match mulNum (-k) left with
  | .error msg => .error msg
  | .ok a =>
      match mulNum (-k) right with
      | .error msg => .error msg
      | .ok b =>
          match mk .addition (.expr (expOp a)) (.expr (expOp b)) with
          | .error msg => .error msg
          | .ok s => mk .division (.expr (.unary .ulog s)) (.num (-k))

/-- Source `softplus(left, right, k)`: `log(exp(k * left) + exp(k * right)) / k`. -/
def softplus (left right : Operand) (k : ℚ) : Except String Expr :=
  match mulNum k left with
  | .error msg => .error msg
  | .ok a =>
      match mulNum k right with
      | .error msg => .error msg
      | .ok b =>
          match mk .addition (.expr (expOp a)) (.expr (expOp b)) with
          | .error msg => .error msg
          | .ok s => mk .division (.expr (.unary .ulog s)) (.num k)

/-- The `minimum(left, right)` factory: an exact Minimum node when the
global setting is "exact" or both operands are constant, otherwise the
softminus approximation with the configured coefficient; the result is
passed through constant-folding. -/
def minimum (settings : Settings) (left right : Operand) : Except String Expr :=
  match settings.min_smoothing with
  | .exact => (mk .minimum left right).map simplify_if_constant
  | .coeff k =>
      if is_constant_op left && is_constant_op right then
        (mk .minimum left right).map simplify_if_constant
      else
        (softminus left right k).map simplify_if_constant

/-- The `maximum(left, right)` factory, symmetric to `minimum` with the
Maximum node and the softplus approximation. -/
def maximum (settings : Settings) (left right : Operand) : Except String Expr :=
  match settings.max_smoothing with
  | .exact => (mk .maximum left right).map simplify_if_constant
  | .coeff k =>
      if is_constant_op left && is_constant_op right then
        (mk .maximum left right).map simplify_if_constant
      else
        (softplus left right k).map simplify_if_constant

/-- Rendering of a scalar leaf name (only variables and operator glyphs
matter for the pretty-printing claims). -/
def pfStr : PyFloat → String
  | .fin q => if q.den = 1 then toString q.num else toString q.num ++ "/" ++ toString q.den
  | .inf => "inf"
  | .ninf => "-inf"
  | .nan => "nan"

/-- Source `BinaryOperator.__str__` and the overrides of the comparison, modulo and
min/max classes. A child that is itself a binary operator is parenthesized
unless the source's name-based conditions hold: on the left, same name, or
"*" under "/", or "+" under "-", or the parent is "+"; on the right, parent
"*" with child "*" or "/", or parent "+". -/
def Expr.str : Expr → String
  | .scalar x => pfStr x
  | .var s => s
  | .time => "time"
  | .stateVector i n => "y[" ++ toString i ++ ":" ++ toString (i + n) ++ "]"
  | .array _ _ _ => "array"
  | .negate c => "-" ++ c.str
  | .unary .uexp c => "exp(" ++ c.str ++ ")"
  | .unary .ulog c => "log(" ++ c.str ++ ")"
  | .broadcast c _ => "broadcast(" ++ c.str ++ ")"
  | .binary .equalHeaviside l r _ _ => l.str ++ " <= " ++ r.str
  | .binary .notEqualHeaviside l r _ _ => l.str ++ " < " ++ r.str
  | .binary .modulo l r _ _ => l.str ++ " mod " ++ r.str
  | .binary .minimum l r _ _ => "minimum(" ++ l.str ++ ", " ++ r.str ++ ")"
  | .binary .maximum l r _ _ => "maximum(" ++ l.str ++ ", " ++ r.str ++ ")"
  | .binary k l r _ _ =>
      let n := opName k
      let ls :=
        match l with
        | .binary kl _ _ _ _ =>
            if opName kl = n ∨ (opName kl = "*" ∧ n = "/") ∨ (opName kl = "+" ∧ n = "-")
                ∨ n = "+"
            then l.str else "(" ++ l.str ++ ")"
        | _ => l.str
      let rs :=
        match r with
        | .binary kr _ _ _ _ =>
            if (n = "*" ∧ (opName kr = "*" ∨ opName kr = "/")) ∨ n = "+"
            then r.str else "(" ++ r.str ++ ")"
        | _ => r.str
      ls ++ " " ++ n ++ " " ++ rs

/-- Tokens of the printed infix syntax. -/
inductive Tok
  | ident (s : String)
  | plus
  | minus
  | times
  | divide
  | pow
  | lparen
  | rparen
deriving DecidableEq

def tokenizeAux : List Char → List Tok
  | [] => []
  | '*' :: '*' :: rest => .pow :: tokenizeAux rest
  | c :: rest =>
      if c = ' ' then tokenizeAux rest
      else if c = '(' then .lparen :: tokenizeAux rest
      else if c = ')' then .rparen :: tokenizeAux rest
      else if c = '+' then .plus :: tokenizeAux rest
      else if c = '-' then .minus :: tokenizeAux rest
      else if c = '/' then .divide :: tokenizeAux rest
      else if c = '*' then .times :: tokenizeAux rest
      else .ident (String.mk [c]) :: tokenizeAux rest

/-- Tokenizer for the printed strings (single-letter identifiers). -/
def tokenize (s : String) : List Tok := tokenizeAux s.data

/-- Standard precedence of the infix operators: additive 1, multiplicative
2, power 3; the Bool is true for the right-associative power. -/
def precOf : Tok → Option (Nat × Bool)
  | .plus => some (1, false)
  | .minus => some (1, false)
  | .times => some (2, false)
  | .divide => some (2, false)
  | .pow => some (3, true)
  | _ => none

def tokKind : Tok → Option Kind
  | .plus => some .addition
  | .minus => some .subtraction
  | .times => some .multiplication
  | .divide => some .division
  | .pow => some .power
  | _ => none

mutual

def parsePrec : Nat → Nat → List Tok → Option (Expr × List Tok)
  | 0, _, _ => none
  | fuel + 1, minPrec, ts =>
      match parseAtom fuel ts with
      | none => none
      | some (lhs, ts1) => parseLoop fuel minPrec lhs ts1

def parseAtom : Nat → List Tok → Option (Expr × List Tok)
  | 0, _ => none
  | _ + 1, .ident s :: rest => some (.var s, rest)
  | fuel + 1, .lparen :: rest =>
      match parsePrec fuel 1 rest with
      | none => none
      | some (e, ts1) =>
          match ts1 with
          | .rparen :: ts2 => some (e, ts2)
          | _ => none
  | _ + 1, _ => none

def parseLoop : Nat → Nat → Expr → List Tok → Option (Expr × List Tok)
  | 0, _, _, _ => none
  | fuel + 1, minPrec, lhs, ts =>
      match ts with
      | [] => some (lhs, [])
      | t :: rest =>
          match precOf t, tokKind t with
          | some (p, rightAssoc), some k =>
              if p < minPrec then some (lhs, ts)
              else
                match parsePrec fuel (if rightAssoc then p else p + 1) rest with
                | none => none
                | some (rhs, ts2) => parseLoop fuel minPrec (.binary k lhs rhs [] []) ts2
          | _, _ => some (lhs, ts)

end

/-- The spec-side parse of a token list under standard precedence and
associativity (this formalizes the spec's words, not code of the module):
a successful parse consumes all tokens. -/
def parse (ts : List Tok) : Option Expr :=
  match parsePrec (2 * ts.length + 2) 1 ts with
  | some (e, []) => some e
  | _ => none

/-- The `isinstance` test of `MatrixMultiplication._binary_jac`: the left
operand is a constant Array, or a Negate wrapping one. -/
def isConstArray : Expr → Bool
  | .array _ _ _ => true
  | .negate (.array _ _ _) => true
  | _ => false

/-- Erase the sparse storage format of a result (normalizing to CSR), so
that values can be compared up to their numeric content. -/
def stripFormat : Value → Value
  | .sparse _ m => .sparse .csr m
  | v => v

/-- A memo table is consistent with an environment when every stored entry
is the plain evaluation of its key. -/
def Consistent (env : Env) (m : Memo) : Prop :=
  ∀ e v, memoLookup m e = some v → eval e env = .ok v

/-- Example constant array leaf on domain a. -/
def exArrA : Expr := .array (.dense [[.fin 1]]) ["a"] []

/-- Example constant array leaf on domain b. -/
def exArrB : Expr := .array (.dense [[.fin 2]]) ["b"] []

/-- Example well-formed binary node with a non-empty domain. -/
def exC6 : Expr := .binary .addition exArrA (.scalar (.fin 1)) ["a"] []

/-- C10: for every operator variant, a binary node is constant exactly when
both children are constant; no variant overrides the conjunction. -/
theorem C10_is_constant_conjunction (k : Kind) (l r : Expr) (dom : List String) (aux : Aux) :
    is_constant (.binary k l r dom aux) = (is_constant l && is_constant r) := rfl

/-- C9 (amended): `Addition(Multiplication(a,b), c)` prints as `a * b + c`
with no parentheses and `Multiplication(Addition(a,b), c)` prints as
`(a + b) * c`, and both strings parse back (under standard precedence and
associativity) to the printed trees. Minimality for every combination of
operators fails; see the counterexample. -/
theorem C9_printing_examples :
    Expr.str (.binary .addition (.binary .multiplication (.var "a") (.var "b") [] [])
        (.var "c") [] []) = "a * b + c" ∧
    Expr.str (.binary .multiplication (.binary .addition (.var "a") (.var "b") [] [])
        (.var "c") [] []) = "(a + b) * c" ∧
    parse (tokenize "a * b + c") =
      some (.binary .addition (.binary .multiplication (.var "a") (.var "b") [] [])
        (.var "c") [] []) ∧
    parse (tokenize "(a + b) * c") =
      some (.binary .multiplication (.binary .addition (.var "a") (.var "b") [] [])
        (.var "c") [] []) := by
  refine ⟨?_, ?_, ?_, ?_⟩ <;> decide

/-- C9 counterexample: `Subtraction(a, Multiplication(b, c))` is printed
with parentheses as `a - (b * c)`, although the parenthesis-free rendering
`a - b * c` parses to exactly the same tree under standard precedence, so
omitting the parentheses would not change the parse and the printed
parentheses are not minimal. -/
theorem C9_counterexample :
    Expr.str (.binary .subtraction (.var "a")
        (.binary .multiplication (.var "b") (.var "c") [] []) [] []) = "a - (b * c)" ∧
    parse (tokenize "a - b * c") =
      some (.binary .subtraction (.var "a")
        (.binary .multiplication (.var "b") (.var "c") [] []) [] []) := by
  constructor <;> decide

/-- C8 (amended): on every pair of evaluated operand values, Inner and
Multiplication produce the same numeric result with the same sparse-aware
dispatch, up to the sparse storage format of the result: Multiplication
normalizes a sparse result to CSR while Inner returns the format produced
by the sparse elementwise multiply. -/
theorem C8_inner_matches_multiplication (l r : Value) :
    (Multiplication.binary_evaluate l r).map stripFormat =
      (Inner.binary_evaluate l r).map stripFormat := by
  cases l with
  | sparse f m =>
      cases hs : spMultiply f m r <;>
        simp [Multiplication.binary_evaluate, Inner.binary_evaluate, hs, stripFormat, Except.map]
  | number x =>
      cases r with
      | sparse f m =>
          cases hs : spMultiply f m (.number x) <;>
            simp [Multiplication.binary_evaluate, Inner.binary_evaluate, hs, stripFormat, Except.map]
      | number y => rfl
      | dense m => rfl
  | dense m0 =>
      cases r with
      | sparse f m =>
          cases hs : spMultiply f m (.dense m0) <;>
            simp [Multiplication.binary_evaluate, Inner.binary_evaluate, hs, stripFormat, Except.map]
      | number y => rfl
      | dense m => rfl

/-- C8 counterexample: the claim that the evaluations are identical,
including the storage-format normalization, fails: on a CSR sparse left and
a dense right the Multiplication result is CSR but the Inner result is the
COO matrix returned by the sparse elementwise multiply. -/
theorem C8_counterexample :
    Multiplication.binary_evaluate (.sparse .csr [[.fin 2]]) (.dense [[.fin 3]]) ≠
      Inner.binary_evaluate (.sparse .csr [[.fin 2]]) (.dense [[.fin 3]]) := by
  decide

/-- C5: the Jacobian combinators short-circuit constant operands: a
Multiplication with two constant-number children has the zero Scalar as
Jacobian, and a Division whose right child is a constant number (and whose
left child is not) has Jacobian `left_jac / right`, with the constant-side
term dropped. -/
theorem C5_constant_short_circuit (ml mr dl dr mlj mrj dlj drj : Expr)
    (h1 : evaluates_to_constant_number ml = true)
    (h2 : evaluates_to_constant_number mr = true)
    (h3 : evaluates_to_constant_number dl = false)
    (h4 : evaluates_to_constant_number dr = true) :
    Multiplication.binary_jac ml mr mlj mrj = .ok (.scalar (.fin 0)) ∧
    Division.binary_jac dl dr dlj drj = mk .division (.expr dlj) (.expr dr) := by
  constructor
  · simp [Multiplication.binary_jac, h1, h2]
  · simp [Division.binary_jac, h3, h4]

/-- Witness for C5 at concrete nodes: `Multiplication(Scalar 2, Scalar 3)`
and `Division(Variable x, Scalar 3)`. -/
theorem C5_witness :
    Multiplication.binary_jac (.scalar (.fin 2)) (.scalar (.fin 3))
        (.scalar (.fin 0)) (.scalar (.fin 0)) = .ok (.scalar (.fin 0)) ∧
    Division.binary_jac (.var "x") (.scalar (.fin 3))
        (.scalar (.fin 1)) (.scalar (.fin 0)) =
      mk .division (.expr (.scalar (.fin 1))) (.expr (.scalar (.fin 3))) :=
  C5_constant_short_circuit (.scalar (.fin 2)) (.scalar (.fin 3)) (.var "x")
    (.scalar (.fin 3)) (.scalar (.fin 0)) (.scalar (.fin 0)) (.scalar (.fin 1))
    (.scalar (.fin 0)) (by decide) (by decide) (by decide) (by decide)

/-- C3 (amended): Division evaluation by cases. A non-sparse left with a
right operand equal to the exact scalar zero gives `left * inf` (so a
positive scalar left gives +inf and a negative scalar left gives -inf,
without an error); a non-sparse left with any other right gives the
elementwise quotient; a sparse left is evaluated as the sparse elementwise
multiply by the reciprocal `1 / right`, normalized to CSR — which, for a
right operand that is the exact scalar zero, raises ZeroDivisionError (see
the counterexample). -/
theorem C3_division_evaluation (l r : Value) :
    (l.isSparse = false → r.isZeroNumber = true →
      Division.binary_evaluate l r = ewOp pfMul l (.number .inf)) ∧
    (∀ a : ℚ, 0 < a →
      Division.binary_evaluate (.number (.fin a)) (.number (.fin 0)) = .ok (.number .inf)) ∧
    (∀ a : ℚ, a < 0 →
      Division.binary_evaluate (.number (.fin a)) (.number (.fin 0)) = .ok (.number .ninf)) ∧
    (l.isSparse = false → r.isZeroNumber = false →
      Division.binary_evaluate l r = ewOp pfDiv l r) ∧
    (∀ (f : SpFmt) (m : Mat),
      Division.binary_evaluate (.sparse f m) r =
        match reciprocal r with
        | .error msg => .error msg
        | .ok rcp => (spMultiply f m rcp).map (fun p => Value.sparse .csr p.2)) := by
  refine ⟨?_, ?_, ?_, ?_, ?_⟩
  · intro hs hz
    cases l <;> simp_all [Division.binary_evaluate, Value.isSparse]
  · intro a ha
    have hz : (Value.number (.fin (0 : ℚ))).isZeroNumber = true := by decide
    simp [Division.binary_evaluate, hz, ewOp, pfMul, ha]
  · intro a ha
    have hz : (Value.number (.fin (0 : ℚ))).isZeroNumber = true := by decide
    have ha2 : ¬ (0 : ℚ) < a := by linarith
    simp [Division.binary_evaluate, hz, ewOp, pfMul, ha, ha2]
  · intro hs hz
    cases l <;> simp_all [Division.binary_evaluate, Value.isSparse]
  · intro f m
    rfl

/-- Witness for C3 at concrete values: a dense left divided by the scalar
zero multiplies by infinity, positive and negative scalars give the two
signed infinities, a non-zero scalar right divides elementwise, and a
sparse left multiplies by the reciprocal. -/
theorem C3_witness :
    Division.binary_evaluate (.dense [[.fin 2], [.fin 0]]) (.number (.fin 0)) =
      ewOp pfMul (.dense [[.fin 2], [.fin 0]]) (.number .inf) ∧
    Division.binary_evaluate (.number (.fin 2)) (.number (.fin 0)) = .ok (.number .inf) ∧
    Division.binary_evaluate (.number (.fin (-2))) (.number (.fin 0)) = .ok (.number .ninf) ∧
    Division.binary_evaluate (.number (.fin 6)) (.number (.fin 3)) =
      ewOp pfDiv (.number (.fin 6)) (.number (.fin 3)) ∧
    Division.binary_evaluate (.sparse .csr [[.fin 4]]) (.number (.fin 2)) =
      match reciprocal (.number (.fin 2)) with
      | .error msg => .error msg
      | .ok rcp => (spMultiply .csr [[.fin 4]] rcp).map (fun p => Value.sparse .csr p.2) :=
  ⟨(C3_division_evaluation (.dense [[.fin 2], [.fin 0]]) (.number (.fin 0))).1
      (by decide) (by decide),
   (C3_division_evaluation (.number (.fin 2)) (.number (.fin 0))).2.1 2 (by norm_num),
   (C3_division_evaluation (.number (.fin (-2))) (.number (.fin 0))).2.2.1 (-2) (by norm_num),
   (C3_division_evaluation (.number (.fin 6)) (.number (.fin 3))).2.2.2.1
      (by decide) (by decide),
   (C3_division_evaluation (.number (.fin 6)) (.number (.fin 2))).2.2.2.2 .csr [[.fin 4]]⟩

/-- C3 counterexample: the claim as stated says the exact scalar zero on
the right returns signed infinity rather than raising for every Division
node, but for a sparse left operand the code computes
`csr_matrix(left.multiply(1 / right))` and the Python scalar division
`1 / 0` raises ZeroDivisionError. -/
theorem C3_counterexample :
    Division.binary_evaluate (.sparse .csr [[.fin 1]]) (.number (.fin 0)) =
      .error "ZeroDivisionError: division by zero" := by decide

/-- C4: `MatrixMultiplication.diff` raises an unsupported-operation error
for every variable; `MatrixMultiplication._binary_jac` succeeds exactly on
a left operand that is a constant Array or a negated constant Array, in
which case the result is the evaluated left operand wrapped as a CSR
matrix (a fresh constant-array leaf) matrix-multiplied with the right
child's Jacobian; every other left operand raises an unsupported-operation
error. -/
theorem C4_matmul_diff_jac :
    (∀ left right v : Expr, MatrixMultiplication.diff left right v =
      .error "NotImplementedError: diff not implemented for symbol of type MatrixMultiplication") ∧
    (∀ (v : MatVal) (d : List String) (a : Aux) (right lj rj : Expr),
      MatrixMultiplication.binary_jac (.array v d a) right lj rj =
        mk .matrixMultiplication (.expr (.array (csrOfMat v) [] [])) (.expr rj)) ∧
    (∀ (v : MatVal) (d : List String) (a : Aux) (right lj rj : Expr),
      MatrixMultiplication.binary_jac (.negate (.array v d a)) right lj rj =
        mk .matrixMultiplication (.expr (.array (csrOfMat (negMat v))  [] [])) (.expr rj)) ∧
    (∀ (v : MatVal) (d : List String) (a : Aux) (right lj rj : Expr),
      exceptIsOk (get_children_auxiliary_domains [.array (csrOfMat v) [] [], rj]) = true →
      ∃ e, MatrixMultiplication.binary_jac (.array v d a) right lj rj = .ok e) ∧
    (∀ left right lj rj : Expr, isConstArray left = false →
      MatrixMultiplication.binary_jac left right lj rj =
        .error "NotImplementedError: jac of MatrixMultiplication is only implemented for left of type Array") := by
  refine ⟨fun _ _ _ => rfl, fun _ _ _ _ _ _ => rfl, fun _ _ _ _ _ _ => rfl, ?_, ?_⟩
  · intro v d a right lj rj haux
    rw [MatrixMultiplication.binary_jac]
    unfold mk
    have hfmt : format (toSymbol (.expr (.array (csrOfMat v) [] []))) (toSymbol (.expr rj)) =
        (.array (csrOfMat v) [] [], rj) := by
      unfold format toSymbol
      simp [domain]
    rw [hfmt]
    dsimp only
    have hdom : get_children_domains (domain (Expr.array (csrOfMat v) [] [])) (domain rj) =
        .ok (domain rj) := by
      unfold get_children_domains
      by_cases h : domain rj = [] <;> simp [domain, h]
    rw [hdom]
    cases ha : get_children_auxiliary_domains [.array (csrOfMat v) [] [], rj] with
    | error msg => rw [ha] at haux; simp [exceptIsOk] at haux
    | ok ax => exact ⟨_, rfl⟩
  · intro left right lj rj h
    cases left with
    | negate c => cases c <;> simp_all [MatrixMultiplication.binary_jac, isConstArray]
    | _ => simp_all [MatrixMultiplication.binary_jac, isConstArray]

/-- Witness for C4 at concrete nodes: diff of a concrete MatrixMultiplication
errors; the Jacobian with a constant-array left and with a negated
constant-array left builds the CSR-wrapped matmul node; a Variable left
errors. -/
theorem C4_witness :
    MatrixMultiplication.diff (.array (.dense [[.fin 1]]) [] []) (.var "u") (.var "s") =
      .error "NotImplementedError: diff not implemented for symbol of type MatrixMultiplication" ∧
    MatrixMultiplication.binary_jac (.array (.dense [[.fin 1]]) [] []) (.var "u")
        (.var "lj") (.var "rj") =
      mk .matrixMultiplication (.expr (.array (.sparse .csr [[.fin 1]]) [] []))
        (.expr (.var "rj")) ∧
    MatrixMultiplication.binary_jac (.negate (.array (.dense [[.fin 1]]) [] [])) (.var "u")
        (.var "lj") (.var "rj") =
      mk .matrixMultiplication (.expr (.array (.sparse .csr [[.fin (-1)]]) [] []))
        (.expr (.var "rj")) ∧
    (∃ e, MatrixMultiplication.binary_jac (.array (.dense [[.fin 1]]) [] []) (.var "u")
        (.var "lj") (.var "rj") = .ok e) ∧
    MatrixMultiplication.binary_jac (.var "z") (.var "u") (.var "lj") (.var "rj") =
      .error "NotImplementedError: jac of MatrixMultiplication is only implemented for left of type Array" :=
  ⟨C4_matmul_diff_jac.1 (.array (.dense [[.fin 1]]) [] []) (.var "u") (.var "s"),
   C4_matmul_diff_jac.2.1 (.dense [[.fin 1]]) [] [] (.var "u") (.var "lj") (.var "rj"),
   by
     have h := C4_matmul_diff_jac.2.2.1 (.dense [[.fin 1]]) [] [] (.var "u")
       (.var "lj") (.var "rj")
     simpa [csrOfMat, negMat, matMap] using h,
   C4_matmul_diff_jac.2.2.2.1 (.dense [[.fin 1]]) [] [] (.var "u") (.var "lj") (.var "rj")
     (by decide),
   C4_matmul_diff_jac.2.2.2.2 (.var "z") (.var "u") (.var "lj") (.var "rj") (by decide)⟩

/-- C7: the minimum factory returns the exact Minimum node (passed through
constant-folding) when the global smoothing setting is "exact" or both
operands are constant, and otherwise the softminus approximation with the
configured coefficient; maximum is symmetric with Maximum / softplus; in
particular minimum(3, 5) under exact smoothing returns the constant Scalar 3
and maximum(3, 5) returns the constant Scalar 5. -/
theorem C7_minimum_maximum_factory (s : Settings) (left right : Operand) :
    (s.min_smoothing = .exact ∨ (is_constant_op left && is_constant_op right) = true →
      minimum s left right = (mk .minimum left right).map simplify_if_constant) ∧
    (∀ k : ℚ, s.min_smoothing = .coeff k →
      (is_constant_op left && is_constant_op right) = false →
      minimum s left right = (softminus left right k).map simplify_if_constant) ∧
    (s.max_smoothing = .exact ∨ (is_constant_op left && is_constant_op right) = true →
      maximum s left right = (mk .maximum left right).map simplify_if_constant) ∧
    (∀ k : ℚ, s.max_smoothing = .coeff k →
      (is_constant_op left && is_constant_op right) = false →
      maximum s left right = (softplus left right k).map simplify_if_constant) ∧
    minimum ⟨.exact, .exact⟩ (.num 3) (.num 5) = .ok (.scalar (.fin 3)) ∧
    maximum ⟨.exact, .exact⟩ (.num 3) (.num 5) = .ok (.scalar (.fin 5)) := by
  refine ⟨?_, ?_, ?_, ?_, by decide, by decide⟩
  · intro h
    cases hs : s.min_smoothing with
    | exact => simp [minimum, hs]
    | coeff k =>
        rcases h with h | h
        · rw [hs] at h; cases h
        · simp [minimum, hs, h]
  · intro k hk hc
    simp [minimum, hk, hc]
  · intro h
    cases hs : s.max_smoothing with
    | exact => simp [maximum, hs]
    | coeff k =>
        rcases h with h | h
        · rw [hs] at h; cases h
        · simp [maximum, hs, h]
  · intro k hk hc
    simp [maximum, hk, hc]

/-- Witness for C7: the exact setting on numbers 3 and 5 goes through the
exact Minimum node and constant-folding, and a coefficient setting with one
non-constant operand goes through softminus. -/
theorem C7_witness :
    minimum ⟨.exact, .exact⟩ (.num 3) (.num 5) =
      (mk .minimum (.num 3) (.num 5)).map simplify_if_constant ∧
    minimum ⟨.coeff 10, .coeff 10⟩ (.num 3) (.expr (.var "x")) =
      (softminus (.num 3) (.expr (.var "x")) 10).map simplify_if_constant ∧
    maximum ⟨.coeff 10, .coeff 10⟩ (.num 3) (.expr (.var "x")) =
      (softplus (.num 3) (.expr (.var "x")) 10).map simplify_if_constant :=
  ⟨(C7_minimum_maximum_factory ⟨.exact, .exact⟩ (.num 3) (.num 5)).1 (Or.inl rfl),
   (C7_minimum_maximum_factory ⟨.coeff 10, .coeff 10⟩ (.num 3) (.expr (.var "x"))).2.1
     10 rfl (by decide),
   (C7_minimum_maximum_factory ⟨.coeff 10, .coeff 10⟩ (.num 3) (.expr (.var "x"))).2.2.2.1
     10 rfl (by decide)⟩

/-- Unfolding lemma for `mk` with the let-binding resolved. -/
theorem mk_eval (k : Kind) (left right : Operand) :
    mk k left right =
      match get_children_domains (domain (format (toSymbol left) (toSymbol right)).1)
          (domain (format (toSymbol left) (toSymbol right)).2) with
      | .error msg => .error msg
      | .ok dom =>
          match get_children_auxiliary_domains
              [(format (toSymbol left) (toSymbol right)).1,
               (format (toSymbol left) (toSymbol right)).2] with
          | .error msg => .error msg
          | .ok aux => .ok (.binary k (format (toSymbol left) (toSymbol right)).1
              (format (toSymbol left) (toSymbol right)).2 dom aux) := rfl

/-- C1: after scalar-to-node conversion and the automatic broadcast of
`format`, the constructed node's domain follows `get_children_domains`:
equal domains give that domain, an empty domain on one side gives the
other, and two non-empty unequal domains make construction fail with the
DomainError and no node is built. -/
theorem C1_domain_combination (k : Kind) (left right : Operand) :
    (domain (format (toSymbol left) (toSymbol right)).1 =
        domain (format (toSymbol left) (toSymbol right)).2 →
      ∀ e, mk k left right = .ok e →
        domain e = domain (format (toSymbol left) (toSymbol right)).1) ∧
    (domain (format (toSymbol left) (toSymbol right)).1 = [] →
      ∀ e, mk k left right = .ok e →
        domain e = domain (format (toSymbol left) (toSymbol right)).2) ∧
    (domain (format (toSymbol left) (toSymbol right)).2 = [] →
      ∀ e, mk k left right = .ok e →
        domain e = domain (format (toSymbol left) (toSymbol right)).1) ∧
    (domain (format (toSymbol left) (toSymbol right)).1 ≠ [] →
      domain (format (toSymbol left) (toSymbol right)).2 ≠ [] →
      domain (format (toSymbol left) (toSymbol right)).1 ≠
        domain (format (toSymbol left) (toSymbol right)).2 →
      mk k left right = .error (domainMismatchMessage
        (domain (format (toSymbol left) (toSymbol right)).1)
        (domain (format (toSymbol left) (toSymbol right)).2))) := by
  refine ⟨?_, ?_, ?_, ?_⟩
  · intro hd e he
    rw [mk_eval] at he
    rw [show get_children_domains (domain (format (toSymbol left) (toSymbol right)).1)
          (domain (format (toSymbol left) (toSymbol right)).2) =
        .ok (domain (format (toSymbol left) (toSymbol right)).1) by
      unfold get_children_domains; simp [hd]] at he
    cases ha : get_children_auxiliary_domains
        [(format (toSymbol left) (toSymbol right)).1,
         (format (toSymbol left) (toSymbol right)).2] with
    | error msg => rw [ha] at he; cases he
    | ok ax =>
        rw [ha] at he
        cases he
        rfl
  · intro hd e he
    by_cases hd2 : domain (format (toSymbol left) (toSymbol right)).1 =
        domain (format (toSymbol left) (toSymbol right)).2
    · rw [mk_eval] at he
      rw [show get_children_domains (domain (format (toSymbol left) (toSymbol right)).1)
            (domain (format (toSymbol left) (toSymbol right)).2) =
          .ok (domain (format (toSymbol left) (toSymbol right)).1) by
        unfold get_children_domains; simp [hd2]] at he
      cases ha : get_children_auxiliary_domains
          [(format (toSymbol left) (toSymbol right)).1,
           (format (toSymbol left) (toSymbol right)).2] with
      | error msg => rw [ha] at he; cases he
      | ok ax =>
          rw [ha] at he
          cases he
          rw [hd2]
          rfl
    · rw [mk_eval] at he
      rw [show get_children_domains (domain (format (toSymbol left) (toSymbol right)).1)
            (domain (format (toSymbol left) (toSymbol right)).2) =
          .ok (domain (format (toSymbol left) (toSymbol right)).2) by
        unfold get_children_domains; simp [hd, hd2]] at he
      cases ha : get_children_auxiliary_domains
          [(format (toSymbol left) (toSymbol right)).1,
           (format (toSymbol left) (toSymbol right)).2] with
      | error msg => rw [ha] at he; cases he
      | ok ax =>
          rw [ha] at he
          cases he
          rfl
  · intro hd e he
    by_cases hd2 : domain (format (toSymbol left) (toSymbol right)).1 =
        domain (format (toSymbol left) (toSymbol right)).2
    · rw [mk_eval] at he
      rw [show get_children_domains (domain (format (toSymbol left) (toSymbol right)).1)
            (domain (format (toSymbol left) (toSymbol right)).2) =
          .ok (domain (format (toSymbol left) (toSymbol right)).1) by
        unfold get_children_domains; simp [hd2]] at he
      cases ha : get_children_auxiliary_domains
          [(format (toSymbol left) (toSymbol right)).1,
           (format (toSymbol left) (toSymbol right)).2] with
      | error msg => rw [ha] at he; cases he
      | ok ax =>
          rw [ha] at he
          cases he
          rfl
    · by_cases hd1 : domain (format (toSymbol left) (toSymbol right)).1 = []
      · rw [mk_eval] at he
        rw [show get_children_domains (domain (format (toSymbol left) (toSymbol right)).1)
              (domain (format (toSymbol left) (toSymbol right)).2) =
            .ok (domain (format (toSymbol left) (toSymbol right)).2) by
          unfold get_children_domains; simp [hd1, hd2]] at he
        cases ha : get_children_auxiliary_domains
            [(format (toSymbol left) (toSymbol right)).1,
             (format (toSymbol left) (toSymbol right)).2] with
        | error msg => rw [ha] at he; cases he
        | ok ax =>
            rw [ha] at he
            cases he
            rw [hd, hd1]
            rfl
      · rw [mk_eval] at he
        rw [show get_children_domains (domain (format (toSymbol left) (toSymbol right)).1)
              (domain (format (toSymbol left) (toSymbol right)).2) =
            .ok (domain (format (toSymbol left) (toSymbol right)).1) by
          unfold get_children_domains; simp [hd, hd1, hd2]] at he
        cases ha : get_children_auxiliary_domains
            [(format (toSymbol left) (toSymbol right)).1,
             (format (toSymbol left) (toSymbol right)).2] with
        | error msg => rw [ha] at he; cases he
        | ok ax =>
            rw [ha] at he
            cases he
            rfl
  · intro h1 h2 h3
    rw [mk_eval]
    rw [show get_children_domains (domain (format (toSymbol left) (toSymbol right)).1)
          (domain (format (toSymbol left) (toSymbol right)).2) =
        .error (domainMismatchMessage
          (domain (format (toSymbol left) (toSymbol right)).1)
          (domain (format (toSymbol left) (toSymbol right)).2)) by
      unfold get_children_domains; simp [h1, h2, h3]]

/-- Formatting is the identity on children whose domains already combine:
equal domains or an empty domain on one side trigger no broadcast. -/
theorem format_id (l r : Expr)
    (h : domain l = domain r ∨ domain l = [] ∨ domain r = []) :
    format l r = (l, r) := by
  rcases h with h | h | h
  · unfold format
    simp [h]
  · unfold format
    simp [h]
  · unfold format
    simp [h]

/-- Domains that are equal or empty on one side always combine. -/
theorem gcd_ok (dl dr : List String)
    (h : dl = dr ∨ dl = [] ∨ dr = []) :
    ∃ d, get_children_domains dl dr = .ok d := by
  cases hg : get_children_domains dl dr with
  | ok d => exact ⟨d, rfl⟩
  | error msg =>
      exfalso
      unfold get_children_domains at hg
      by_cases h1 : dl = dr
      · simp [h1] at hg
      · by_cases h2 : dl = []
        · by_cases h3 : dr = [] <;> simp [h1, h2, h3] at hg
        · by_cases h3 : dr = []
          · simp [h1, h2, h3] at hg
          · rcases h with h | h | h <;> contradiction

/-- On a well-formed tree the structural copy is the identity: rebuilding
each binary node from the copied children succeeds and `copy_domains`
restores the stored metadata. -/
theorem new_copy_id (e : Expr) (h : WF e = true) : new_copy e = .ok e := by
  induction e with
  | binary k l r dom aux ihl ihr =>
      rw [WF] at h
      simp only [Bool.and_eq_true, Bool.or_eq_true, decide_eq_true_eq] at h
      obtain ⟨⟨⟨hdom, haux⟩, hl⟩, hr⟩ := h
      rw [or_assoc] at hdom
      rw [new_copy, ihl hl, ihr hr]
      dsimp only
      have hmk : mk k (.expr l) (.expr r) =
          match get_children_domains (domain l) (domain r) with
          | .error msg => .error msg
          | .ok dom2 =>
              match get_children_auxiliary_domains [l, r] with
              | .error msg => .error msg
              | .ok aux2 => .ok (.binary k l r dom2 aux2) := by
        rw [mk_eval]
        rw [show format (toSymbol (.expr l)) (toSymbol (.expr r)) = (l, r) from
          format_id l r hdom]
      rw [hmk]
      obtain ⟨d, hd⟩ := gcd_ok (domain l) (domain r) hdom
      rw [hd]
      cases ha : get_children_auxiliary_domains [l, r] with
      | error msg => rw [ha] at haux; simp [exceptIsOk] at haux
      | ok ax => simp [copy_domains]
  | negate c ih =>
      rw [WF] at h
      rw [new_copy, ih h]
      rfl
  | unary u c ih =>
      rw [WF] at h
      rw [new_copy, ih h]
      rfl
  | broadcast c dom ih =>
      rw [WF] at h
      rw [new_copy, ih h]
      rfl
  | scalar x => rfl
  | var s => rfl
  | time => rfl
  | stateVector i n => rfl
  | array v dom aux => rfl

/-- C6: on a well-formed tree, `new_copy` deep-copies the children, rebuilds
the same operator kind and forces the original metadata onto the copy, so
the copy carries the same domain and auxiliary-domain metadata as the
original and evaluates to the same value on every input. -/
theorem C6_structural_copy (e : Expr) (h : WF e = true) :
    ∃ e2, new_copy e = .ok e2 ∧ domain e2 = domain e ∧ auxdoms e2 = auxdoms e ∧
      ∀ env, eval e2 env = eval e env :=
  ⟨e, new_copy_id e h, rfl, rfl, fun _ => rfl⟩

/-- Witness for C6 at a concrete well-formed node with a non-empty domain. -/
theorem C6_witness :
    ∃ e2, new_copy exC6 = .ok e2 ∧ domain e2 = domain exC6 ∧
      auxdoms e2 = auxdoms exC6 ∧ ∀ env, eval e2 env = eval exC6 env :=
  C6_structural_copy exC6 (by decide)

/-- Extending a consistent memo table with a correct entry keeps it
consistent. -/
theorem Consistent.cons {env : Env} {m : Memo} (h : Consistent env m) {e : Expr}
    {v : Value} (he : eval e env = .ok v) : Consistent env ((e, v) :: m) := by
  intro e2 v2 h2
  rw [memoLookup] at h2
  by_cases heq : e = e2
  · subst heq
    simp at h2
    subst h2
    exact he
  · rw [if_neg heq] at h2
    exact h e2 v2 h2

/-- Correctness of the base memoized path: with a consistent table it
returns the plain evaluation and keeps the table consistent, and it fails
exactly as the plain evaluation fails. -/
theorem memoBase_correct (e : Expr) (env : Env) (m : Memo) (h : Consistent env m) :
    (∀ v m2, memoBase e env m = .ok (v, m2) → eval e env = .ok v ∧ Consistent env m2) ∧
    (∀ msg, memoBase e env m = .error msg → eval e env = .error msg) := by
  unfold memoBase
  cases hl : memoLookup m e with
  | some v0 =>
      constructor
      · intro v m2 hv
        simp at hv
        obtain ⟨rfl, rfl⟩ := hv
        exact ⟨h e v0 hl, h⟩
      · intro msg hmsg
        simp at hmsg
  | none =>
      cases he : eval e env with
      | error msg =>
          constructor
          · intro v m2 hv
            simp at hv
          · intro msg2 hmsg
            simp at hmsg
            rw [hmsg]
      | ok v0 =>
          constructor
          · intro v m2 hv
            simp at hv
            obtain ⟨rfl, rfl⟩ := hv
            exact ⟨rfl, h.cons he⟩
          · intro msg hmsg
            simp at hmsg

/-- Correctness of the memoized evaluation: with a consistent table the
memoized path returns exactly the plain evaluation (value and failure), and
the returned table stays consistent. -/
theorem evaluateMemo_correct (e : Expr) : ∀ (env : Env) (m : Memo), Consistent env m →
    (∀ v m2, evaluateMemo e env m = .ok (v, m2) →
      eval e env = .ok v ∧ Consistent env m2) ∧
    (∀ msg, evaluateMemo e env m = .error msg → eval e env = .error msg) := by
  induction e with
  | binary k l r dom aux ihl ihr =>
      intro env m hm
      rw [evaluateMemo]
      cases hl : memoLookup m (.binary k l r dom aux) with
      | some v0 =>
          constructor
          · intro v m2 hv
            simp at hv
            obtain ⟨rfl, rfl⟩ := hv
            exact ⟨hm _ _ hl, hm⟩
          · intro msg hmsg
            simp at hmsg
      | none =>
          dsimp only
          cases hL : evaluateMemo l env m with
          | error msg =>
              dsimp only
              have hLe := (ihl env m hm).2 msg hL
              constructor
              · intro v m2 hv
                simp at hv
              · intro msg2 hmsg
                simp at hmsg
                subst hmsg
                rw [eval, hLe]
          | ok p1 =>
              obtain ⟨lv, m1⟩ := p1
              dsimp only
              obtain ⟨hLv, hm1⟩ := (ihl env m hm).1 lv m1 hL
              cases hR : evaluateMemo r env m1 with
              | error msg =>
                  dsimp only
                  have hRe := (ihr env m1 hm1).2 msg hR
                  constructor
                  · intro v m2 hv
                    simp at hv
                  · intro msg2 hmsg
                    simp at hmsg
                    subst hmsg
                    rw [eval, hLv, hRe]
              | ok p2 =>
                  obtain ⟨rv, m2'⟩ := p2
                  dsimp only
                  obtain ⟨hRv, hm2⟩ := (ihr env m1 hm1).1 rv m2' hR
                  cases hB : binary_evaluate k lv rv with
                  | error msg =>
                      dsimp only
                      constructor
                      · intro v m3 hv
                        simp at hv
                      · intro msg2 hmsg
                        simp at hmsg
                        subst hmsg
                        simp [eval, hLv, hRv, hB]
                  | ok v0 =>
                      dsimp only
                      have heval : eval (.binary k l r dom aux) env = .ok v0 := by
                        simp [eval, hLv, hRv, hB]
                      constructor
                      · intro v m3 hv
                        simp at hv
                        obtain ⟨rfl, rfl⟩ := hv
                        exact ⟨heval, hm2.cons heval⟩
                      · intro msg hmsg
                        simp at hmsg
  | scalar x => exact fun env m hm => memoBase_correct _ env m hm
  | var s => exact fun env m hm => memoBase_correct _ env m hm
  | time => exact fun env m hm => memoBase_correct _ env m hm
  | stateVector i n => exact fun env m hm => memoBase_correct _ env m hm
  | array v dom aux => exact fun env m hm => memoBase_correct _ env m hm
  | negate c ih => exact fun env m hm => memoBase_correct _ env m hm
  | unary u c ih => exact fun env m hm => memoBase_correct _ env m hm
  | broadcast c dom ih => exact fun env m hm => memoBase_correct _ env m hm

/-- C2: for every node and every fixed input tuple, the memoized evaluation
with any consistent memo table (in particular the fresh empty one) returns
the same value — or the same failure — as the unmemoized evaluation:
memoization is a pure optimization. -/
theorem C2_memoization_equivalence (e : Expr) (env : Env) (m : Memo)
    (h : Consistent env m) :
    Except.map Prod.fst (evaluateMemo e env m) = eval e env := by
  obtain ⟨hok, herr⟩ := evaluateMemo_correct e env m h
  cases hv : evaluateMemo e env m with
  | ok p =>
      obtain ⟨v, m2⟩ := p
      have := (hok v m2 hv).1
      simp [Except.map, this]
  | error msg =>
      simp [Except.map, herr msg hv]

/-- Witness for C2 at a concrete binary node, environment and the empty
memo table (which is trivially consistent). -/
theorem C2_witness :
    Except.map Prod.fst (evaluateMemo
        (.binary .multiplication (.binary .addition (.scalar (.fin 1)) .time [] [])
          (.binary .addition (.scalar (.fin 1)) .time [] []) [] [])
        ⟨some (.fin 2), none⟩ []) =
      eval (.binary .multiplication (.binary .addition (.scalar (.fin 1)) .time [] [])
          (.binary .addition (.scalar (.fin 1)) .time [] []) [] [])
        ⟨some (.fin 2), none⟩ :=
  C2_memoization_equivalence _ _ [] (by intro e v hv; simp [memoLookup] at hv)

/-- Witness for C1 at concrete operands: a node built from a domain-a array
and a number carries domain a; equal domains carry that domain; two
different non-empty domains fail with the DomainError. -/
theorem C1_witness :
    domain (.binary .addition exArrA (.scalar (.fin 1)) ["a"] [] : Expr) =
      domain (format (toSymbol (.expr exArrA)) (toSymbol (.num 1))).1 ∧
    mk .addition (.expr exArrA) (.expr exArrB) =
      .error (domainMismatchMessage ["a"] ["b"]) := by
  constructor
  · exact (C1_domain_combination .addition (.expr exArrA) (.num 1)).2.2.1 (by decide)
      (.binary .addition exArrA (.scalar (.fin 1)) ["a"] []) (by decide)
  · have h := (C1_domain_combination .addition (.expr exArrA) (.expr exArrB)).2.2.2
      (by decide) (by decide) (by decide)
    simpa using h

end PyBaMM
